import Mathlib

/-!
Verification of the gosnowth IRONdb client library's topology-aware routing
layer and payload codecs, as a shallow embedding in Lean.

Conventions of the embedding:
* Go `int64` / `int` become `Int` (no arithmetic in the verified paths can
  overflow 64 bits on the inputs considered); Go integer `/` and `%` truncate
  toward zero, so they are embedded as `Int.tdiv` / `Int.tmod`.
* Go `float64` positions and values become `Rat`: every claim considered
  stays inside the range where the float arithmetic involved is exact, and
  comparisons on positions are total-order comparisons either way.
* Fallible Go code returning `error` becomes `Except`/`Option`, or a
  `× Option String` component when the Go function both mutates a value and
  returns an error.
* `encoding/json` and `encoding/xml` byte-level parsing is not re-implemented;
  JSON payloads are represented by the parse tree `JsonVal` (with `Option
  JsonVal`, `none` standing for input that fails to parse), and the decode
  steps that gosnowth injects (`decodeJSON`, `decodeXML`) stay abstract
  parameters exactly as the spec's `decode` primitive is abstract.
-/

namespace Gosnowth

/-- Parse tree of a JSON document, as Go's `encoding/json` classifies values
when decoding into `interface{}`: numbers become `float64` (embedded as `Rat`),
strings `string`, booleans `bool`, `null` the nil interface. -/
inductive JsonVal where
  | null : JsonVal
  | bool (b : Bool) : JsonVal
  | num (q : Rat) : JsonVal
  | str (s : String) : JsonVal
  | arr (xs : List JsonVal) : JsonVal
  | obj (fields : List (String × JsonVal)) : JsonVal

/-! ## Ring locator

The repository sources include the ring data shape (`TopoRing`,
`TopoRingDetail` in toporing.go) but not the ring-search routine itself; the
spec (§4.1, §9) describes `locate` and notes the lookup implementation is not
shown. The locator below is therefore modelled from the spec. -/

/-- Spec §3: `RingDescriptor: { nodeID: string, index: integer, position: float }`. -/
structure RingDescriptor where
  nodeID : String
  index : Int
  position : Rat
deriving DecidableEq, Repr

/-- Spec §3: a Ring is an ordered sequence of `RingDescriptor` plus a
`replicationFactor`. -/
structure Ring where
  descriptors : List RingDescriptor
  replicationFactor : Nat
deriving DecidableEq, Repr

/-- Spec §7: error taxonomy entry for ring lookup on an empty ring. -/
inductive LocateError where
  | emptyRing : LocateError
deriving DecidableEq, Repr

/-- Walk forward through (already rotated) descriptors collecting up to `need`
descriptors whose node IDs are new with respect to `seen`, skipping duplicate
node IDs (spec §4.1: "walk forward (wrapping) collecting up to
`replicationFactor` descriptors, skipping duplicate `nodeID`s"). -/
def collectDistinct : Nat → List String → List RingDescriptor → List RingDescriptor
  | _, _, [] => []
  | 0, _, _ :: _ => []
  | need + 1, seen, d :: ds =>
    if d.nodeID ∈ seen then collectDistinct (need + 1) seen ds
    else d :: collectDistinct need (d.nodeID :: seen) ds

/-- Whether a descriptor's ring position is at or after the key hash. -/
def atOrAfter (hashVal : Rat) (d : RingDescriptor) : Bool :=
  hashVal ≤ d.position

/-- Index of the first descriptor with `position ≥ hash`, wrapping to index 0
when no position reaches the hash (spec §4.1: "If no such descriptor exists
... wrap around to the first descriptor — the ring is circular"). -/
def startIndex (ds : List RingDescriptor) (hashVal : Rat) : Nat :=
  if ds.findIdx (atOrAfter hashVal) < ds.length then
    ds.findIdx (atOrAfter hashVal)
  else 0

/-- Modelled from the spec: the ring-lookup routine `locate` of §4.1, which the
repository sources do not include (only the ring data shape is present).
Faithful to the spec's words: empty ring errors with `EmptyRing`; otherwise
find the first descriptor with `position ≥ hash(key)` (wrapping to the first
descriptor when none exists) and walk forward from it, wrapping, collecting up
to `replicationFactor` descriptors with distinct node IDs. -/
def locate (ring : Ring) (hashVal : Rat) : Except LocateError (List RingDescriptor) :=
  if ring.descriptors.isEmpty then .error .emptyRing
  else
    .ok (collectDistinct ring.replicationFactor []
      (ring.descriptors.drop (startIndex ring.descriptors hashVal) ++
        ring.descriptors.take (startIndex ring.descriptors hashVal)))

/-- Number of distinct node IDs among a list of descriptors. -/
def distinctNodeCount (ds : List RingDescriptor) : Nat :=
  ((ds.map RingDescriptor.nodeID).toFinset).card

/-- C2: `locate` on a ring with no virtual nodes returns the `EmptyRing`
error; being a pure function, the error affects only that call's result. -/
theorem locate_empty_ring_error (rf : Nat) (hashVal : Rat) :
    locate ⟨[], rf⟩ hashVal = .error .emptyRing := rfl

/-- Inserting an element always grows a finset to the erased-card plus one. -/
theorem card_insert_eq_erase_add_one {α : Type} [DecidableEq α] (a : α) (Y : Finset α) :
    (insert a Y).card = (Y.erase a).card + 1 := by
  rw [← Finset.card_insert_of_not_mem (Finset.not_mem_erase a Y)]
  congr 1
  ext x
  by_cases hx : x = a <;> simp [hx]

/-- The walk collects exactly `min need k` descriptors, where `k` is the
number of distinct node IDs in the input that are not already `seen`. -/
theorem collectDistinct_length (l : List RingDescriptor) :
    ∀ (need : Nat) (seen : List String),
      (collectDistinct need seen l).length =
        min need (((l.map RingDescriptor.nodeID).toFinset) \ seen.toFinset).card := by
  induction l with
  | nil => intro need seen; simp [collectDistinct]
  | cons d ds ih =>
    intro need seen
    cases need with
    | zero => simp [collectDistinct]
    | succ n =>
      by_cases hmem : d.nodeID ∈ seen
      · rw [collectDistinct, if_pos hmem, ih]
        congr 2
        rw [List.map_cons, List.toFinset_cons,
          Finset.insert_sdiff_of_mem _ (List.mem_toFinset.mpr hmem)]
      · have h1 : ((d :: ds).map RingDescriptor.nodeID).toFinset \ seen.toFinset
            = insert d.nodeID ((ds.map RingDescriptor.nodeID).toFinset \ seen.toFinset) := by
          rw [List.map_cons, List.toFinset_cons,
            Finset.insert_sdiff_of_not_mem _ (fun h => hmem (List.mem_toFinset.mp h))]
        have h2 : (ds.map RingDescriptor.nodeID).toFinset \ (d.nodeID :: seen).toFinset
            = ((ds.map RingDescriptor.nodeID).toFinset \ seen.toFinset).erase d.nodeID := by
          rw [List.toFinset_cons, Finset.sdiff_insert]
        rw [collectDistinct, if_neg hmem, List.length_cons, ih n (d.nodeID :: seen), h1, h2,
          card_insert_eq_erase_add_one]
        omega

/-- The walk's output has pairwise-distinct node IDs, none of them `seen`. -/
theorem collectDistinct_nodup (l : List RingDescriptor) :
    ∀ (need : Nat) (seen : List String),
      ((collectDistinct need seen l).map RingDescriptor.nodeID).Nodup ∧
        ∀ x ∈ (collectDistinct need seen l).map RingDescriptor.nodeID, x ∉ seen := by
  induction l with
  | nil => intro need seen; simp [collectDistinct]
  | cons d ds ih =>
    intro need seen
    cases need with
    | zero => simp [collectDistinct]
    | succ n =>
      by_cases hmem : d.nodeID ∈ seen
      · rw [collectDistinct, if_pos hmem]; exact ih _ _
      · rw [collectDistinct, if_neg hmem]
        obtain ⟨hnd, hns⟩ := ih n (d.nodeID :: seen)
        refine ⟨?_, ?_⟩
        · rw [List.map_cons, List.nodup_cons]
          exact ⟨fun h => (hns _ h) (List.mem_cons_self _ _), hnd⟩
        · intro x hx
          rw [List.map_cons, List.mem_cons] at hx
          rcases hx with rfl | hx
          · exact hmem
          · exact fun hxs => (hns x hx) (List.mem_cons_of_mem _ hxs)

/-- C1: for every non-empty (position-sorted) ring with replication factor at
least 1 and every key hash, `locate` succeeds with an ordered sequence of
between 1 and `replicationFactor` descriptors with pairwise-distinct node IDs,
of length `min replicationFactor (number of distinct node IDs)` (which equals
`min replicationFactor (ring length)` whenever all node IDs are distinct), and
whose first element is the descriptor with the smallest position ≥ hash,
wrapping to the ring's first descriptor when no position reaches the hash. -/
theorem locate_spec (ring : Ring) (hashVal : Rat)
    (hne : ring.descriptors ≠ [])
    (hrf : 1 ≤ ring.replicationFactor)
    (hsorted : ring.descriptors.Pairwise (fun a b => a.position ≤ b.position)) :
    ∃ res, locate ring hashVal = .ok res ∧
      1 ≤ res.length ∧
      res.length ≤ ring.replicationFactor ∧
      (res.map RingDescriptor.nodeID).Nodup ∧
      res.length = min ring.replicationFactor (distinctNodeCount ring.descriptors) ∧
      ∃ first, res.head? = some first ∧ first ∈ ring.descriptors ∧
        ((∃ d ∈ ring.descriptors, hashVal ≤ d.position) →
          hashVal ≤ first.position ∧
            ∀ d ∈ ring.descriptors, hashVal ≤ d.position → first.position ≤ d.position) ∧
        ((∀ d ∈ ring.descriptors, ¬ hashVal ≤ d.position) →
          ring.descriptors.head? = some first) := by
  classical
  set ds := ring.descriptors with hds
  have hlen : 0 < ds.length := List.length_pos.mpr hne
  have hi : startIndex ds hashVal < ds.length := by
    rw [startIndex]
    split
    · assumption
    · exact hlen
  set i := startIndex ds hashVal with hidef
  set rot := ds.drop i ++ ds.take i with hrot
  have hlocate : locate ring hashVal = .ok (collectDistinct ring.replicationFactor [] rot) := by
    rw [locate, if_neg (by simpa [List.isEmpty_iff] using hne)]
  set res := collectDistinct ring.replicationFactor [] rot with hres
  have hrotids : ((rot.map RingDescriptor.nodeID).toFinset)
      = ((ds.map RingDescriptor.nodeID).toFinset) := by
    rw [hrot, List.map_append, List.toFinset_append, Finset.union_comm,
      ← List.toFinset_append, ← List.map_append, List.take_append_drop]
  have hlength : res.length = min ring.replicationFactor (distinctNodeCount ds) := by
    rw [hres, collectDistinct_length, hrotids]
    simp [distinctNodeCount]
  have hdistpos : 1 ≤ distinctNodeCount ds := by
    have hmem : ds[0].nodeID ∈ (ds.map RingDescriptor.nodeID).toFinset := by
      rw [List.mem_toFinset]
      exact List.mem_map_of_mem _ (List.getElem_mem hlen)
    exact Finset.card_pos.mpr ⟨_, hmem⟩
  refine ⟨res, hlocate, ?_, ?_, (collectDistinct_nodup rot _ _).1, hlength, ?_⟩
  · omega
  · omega
  · -- the head of the result is the descriptor at the start index
    have hdrop : (ds.drop i).head? = some ds[i] := by
      rw [List.head?_drop]
      exact List.getElem?_eq_getElem hi
    have hrothead : rot.head? = some ds[i] := by
      rw [hrot, List.head?_append, hdrop]
      rfl
    obtain ⟨r, rs, hcons⟩ : ∃ r rs, rot = r :: rs := by
      cases hrotc : rot with
      | nil => rw [hrotc] at hrothead; simp at hrothead
      | cons r rs => exact ⟨r, rs, rfl⟩
    have hr : r = ds[i] := by
      rw [hcons] at hrothead
      simpa using hrothead
    obtain ⟨n, hn⟩ : ∃ n, ring.replicationFactor = n + 1 := ⟨ring.replicationFactor - 1, by omega⟩
    have hhead : res.head? = some ds[i] := by
      rw [hres, hcons, hn, collectDistinct, if_neg (List.not_mem_nil _), ← hr]
      rfl
    refine ⟨ds[i], hhead, List.getElem_mem hi, ?_, ?_⟩
    · rintro ⟨d, hdmem, hdpos⟩
      have hfound : (∃ x ∈ ds, atOrAfter hashVal x = true) :=
        ⟨d, hdmem, by simp [atOrAfter, hdpos]⟩
      have hflt : ds.findIdx (atOrAfter hashVal) < ds.length :=
        List.findIdx_lt_length_of_exists hfound
      have hieq : i = ds.findIdx (atOrAfter hashVal) := by
        rw [hidef, startIndex, if_pos hflt]
      have hstar := @List.findIdx_getElem _ (atOrAfter hashVal) ds hflt
      have hq : ds[i]? = some (ds.get ⟨ds.findIdx (atOrAfter hashVal), hflt⟩) := by
        rw [hieq]
        exact List.getElem?_eq_getElem hflt
      have hsame : ds[i] = ds.get ⟨ds.findIdx (atOrAfter hashVal), hflt⟩ :=
        Option.some.inj ((List.getElem?_eq_getElem hi).symm.trans hq)
      have hfirstpos : hashVal ≤ ds[i].position := by
        rw [hsame]
        simpa [atOrAfter] using hstar
      refine ⟨hfirstpos, ?_⟩
      intro e hemem hepos
      obtain ⟨k, hk, hke⟩ := List.mem_iff_getElem.mp hemem
      rcases Nat.lt_trichotomy k (ds.findIdx (atOrAfter hashVal)) with hki | hki | hki
      · exfalso
        have hfalse := @List.not_of_lt_findIdx _ (atOrAfter hashVal) ds k hki
        rw [hke] at hfalse
        simp [atOrAfter, hepos] at hfalse
      · rw [hsame]
        have : ds.get ⟨ds.findIdx (atOrAfter hashVal), hflt⟩ = e := by
          rw [← hke]
          simp [List.get_eq_getElem, hki]
        rw [this]
      · have hpw := List.pairwise_iff_getElem.mp hsorted
          (ds.findIdx (atOrAfter hashVal)) k hflt hk hki
        rw [hke] at hpw
        rw [hsame]
        exact hpw
    · intro hnone
      have hnotfound : ¬ ds.findIdx (atOrAfter hashVal) < ds.length := by
        intro hflt
        have hstar := @List.findIdx_getElem _ (atOrAfter hashVal) ds hflt
        have hmem := List.getElem_mem hflt
        exact hnone _ hmem (by simpa [atOrAfter] using hstar)
      have hieq : i = 0 := by
        rw [hidef, startIndex, if_neg hnotfound]
      calc ds.head? = ds[0]? := List.head?_eq_getElem? ds
        _ = ds[i]? := by rw [hieq]
        _ = some ds[i] := List.getElem?_eq_getElem hi

/-- Witness for `locate_spec`, at the spec §8 example ring
`[{A,10},{B,40},{C,90}]` with replication factor 2 and key hash 50. -/
theorem locate_spec_witness :
    ((⟨[⟨"A", 0, 10⟩, ⟨"B", 1, 40⟩, ⟨"C", 2, 90⟩], 2⟩ : Ring).descriptors ≠ [] ∧
      1 ≤ (⟨[⟨"A", 0, 10⟩, ⟨"B", 1, 40⟩, ⟨"C", 2, 90⟩], 2⟩ : Ring).replicationFactor ∧
      (⟨[⟨"A", 0, 10⟩, ⟨"B", 1, 40⟩, ⟨"C", 2, 90⟩], 2⟩ : Ring).descriptors.Pairwise
        (fun a b => a.position ≤ b.position)) ∧
    (∃ res, locate (⟨[⟨"A", 0, 10⟩, ⟨"B", 1, 40⟩, ⟨"C", 2, 90⟩], 2⟩ : Ring) 50 = .ok res ∧
      1 ≤ res.length ∧
      res.length ≤ 2 ∧
      (res.map RingDescriptor.nodeID).Nodup ∧
      res.length = min 2 (distinctNodeCount
        (⟨[⟨"A", 0, 10⟩, ⟨"B", 1, 40⟩, ⟨"C", 2, 90⟩], 2⟩ : Ring).descriptors) ∧
      ∃ first, res.head? = some first ∧
        first ∈ (⟨[⟨"A", 0, 10⟩, ⟨"B", 1, 40⟩, ⟨"C", 2, 90⟩], 2⟩ : Ring).descriptors ∧
        ((∃ d ∈ (⟨[⟨"A", 0, 10⟩, ⟨"B", 1, 40⟩, ⟨"C", 2, 90⟩], 2⟩ : Ring).descriptors,
            (50 : Rat) ≤ d.position) →
          (50 : Rat) ≤ first.position ∧
            ∀ d ∈ (⟨[⟨"A", 0, 10⟩, ⟨"B", 1, 40⟩, ⟨"C", 2, 90⟩], 2⟩ : Ring).descriptors,
              (50 : Rat) ≤ d.position → first.position ≤ d.position) ∧
        ((∀ d ∈ (⟨[⟨"A", 0, 10⟩, ⟨"B", 1, 40⟩, ⟨"C", 2, 90⟩], 2⟩ : Ring).descriptors,
            ¬ (50 : Rat) ≤ d.position) →
          (⟨[⟨"A", 0, 10⟩, ⟨"B", 1, 40⟩, ⟨"C", 2, 90⟩], 2⟩ : Ring).descriptors.head?
            = some first)) :=
  ⟨⟨by decide, by decide, by decide⟩,
    locate_spec ⟨[⟨"A", 0, 10⟩, ⟨"B", 1, 40⟩, ⟨"C", 2, 90⟩], 2⟩ 50
      (by decide) (by decide) (by decide)⟩

/-! ## tags.go: data model -/

/-- A client-side handle to one IRONdb node; only its identity matters here
(the tests build one from a URL). Go passes `*SnowthNode`, embedded as
`Option SnowthNode` with `none` for the nil pointer. -/
structure SnowthNode where
  url : String
deriving DecidableEq, Repr

/-- The two observations gosnowth makes of a Go `time.Time` value: `IsZero()`
and `Unix()`. Kept as independent fields of the abstract time value. -/
structure GoTime where
  Unix : Int
  IsZero : Bool
deriving DecidableEq, Repr

/-- Structure `FindTagsLatestNumeric` (tags.go): `Time int64`, `Value *float64`. -/
structure FindTagsLatestNumeric where
  Time : Int
  Value : Option Rat
deriving DecidableEq, Repr

/-- Structure `FindTagsLatest` (tags.go). Text and histogram entries are `(int64,
*string)` pairs; their codecs are not at issue, so they stay as raw pairs. -/
structure FindTagsLatest where
  Numeric : List FindTagsLatestNumeric
  Text : List (Int × Option String)
  Histogram : List (Int × Option String)
deriving DecidableEq, Repr

/-- Structure `FindTagsItem` (tags.go). -/
structure FindTagsItem where
  UUID : String
  CheckTags : List String
  MetricName : String
  «Type» : String
  AccountID : Int
  Activity : List (List Int)
  Latest : Option FindTagsLatest
deriving DecidableEq, Repr

/-- Structure `FindTagsCount` (tags.go). -/
structure FindTagsCount where
  Count : Int
  Estimate : Bool
deriving DecidableEq, Repr

/-- Structure `FindTagsResult` (tags.go); `FindCount *FindTagsCount` becomes an option. -/
structure FindTagsResult where
  Items : List FindTagsItem
  FindCount : Option FindTagsCount
  Count : Int
deriving DecidableEq, Repr

/-- Structure `FindTagsOptions` (tags.go). -/
structure FindTagsOptions where
  Start : GoTime
  End : GoTime
  Activity : Int
  Latest : Int
  CountOnly : Int
  Limit : Int
deriving DecidableEq, Repr

/-! ## tags.go: FindTagsLatestNumeric JSON round trip (C10) -/

/-- Truncation of a rational toward zero, as Go's `int64(f)` conversion
truncates a `float64`. -/
def ratTrunc (q : Rat) : Int := q.num.tdiv q.den

/-- Method `FindTagsLatestNumeric.MarshalJSON` (tags.go lines 64-67):
`json.Marshal([]interface{}{ftl.Time, ftl.Value})` — an int64 marshals as a
JSON number, a nil `*float64` as `null`, a non-nil one as a number. -/
def FindTagsLatestNumeric.marshalJSON (ftl : FindTagsLatestNumeric) : JsonVal :=
  .arr [.num (ftl.Time : Rat),
    match ftl.Value with
    | none => .null
    | some v => .num v]

/-- Method `FindTagsLatestNumeric.UnmarshalJSON` (tags.go lines 71-100): decode into
`[]interface{}` (`none` input stands for bytes that fail to parse), require
exactly two entries, require a number first entry (assigned to `Time` through
the float64-to-int64 conversion), and allow `null` (leave `Value` as is) or a
number (assign) second. -/
def FindTagsLatestNumeric.unmarshalJSON (ftl : FindTagsLatestNumeric)
    (b : Option JsonVal) : Except String FindTagsLatestNumeric :=
  match b with
  | none => .error "json syntax error"
  | some (.arr [v0, v1]) =>
    match v0 with
    | .num fv =>
      let ftl1 := { ftl with Time := ratTrunc fv }
      match v1 with
      | .null => .ok ftl1
      | .num fv1 => .ok { ftl1 with Value := some fv1 }
      | _ => .error "unable to decode latest numeric value, invalid value"
    | _ => .error "unable to decode latest numeric value, invalid timestamp"
  | some (.arr _) => .error "unable to decode latest numeric value, invalid length"
  | some _ => .error "json: cannot unmarshal value into Go value of type []interface \x7b\x7d"

/-- C10: marshalling then unmarshalling a `FindTagsLatestNumeric` whose `Time`
is exactly float64-representable (|Time| ≤ 2^53, the range on which the
embedding's exact-number JSON channel agrees with Go's float64 one) restores
the value, a nil `Value` staying nil. -/
theorem findTagsLatestNumeric_roundtrip (ftl : FindTagsLatestNumeric)
    (htime : ftl.Time.natAbs ≤ 2 ^ 53) :
    FindTagsLatestNumeric.unmarshalJSON ⟨0, none⟩ (some ftl.marshalJSON) = .ok ftl := by
  obtain ⟨t, v⟩ := ftl
  cases v <;>
    simp [FindTagsLatestNumeric.marshalJSON, FindTagsLatestNumeric.unmarshalJSON,
      ratTrunc, Rat.num_intCast, Rat.den_intCast, Int.tdiv_one]

/-- Witness for `findTagsLatestNumeric_roundtrip` at `⟨1380000000, some 50⟩`
(the repository's numeric test payload `[1380000000,50]`). -/
theorem findTagsLatestNumeric_roundtrip_witness :
    (1380000000 : Int).natAbs ≤ 2 ^ 53 ∧
      FindTagsLatestNumeric.unmarshalJSON ⟨0, none⟩
        (some (FindTagsLatestNumeric.marshalJSON ⟨1380000000, some 50⟩))
        = .ok ⟨1380000000, some 50⟩ :=
  ⟨by decide, findTagsLatestNumeric_roundtrip ⟨1380000000, some 50⟩ (by decide)⟩

/-! ## tags.go: FindTagsContext dispatch (C3, C4, C6) -/

/-- Go `http.Header.Get`: the empty string when the key is absent. -/
def headerGet (h : List (String × String)) (key : String) : String :=
  match h.lookup key with
  | some v => v
  | none => ""

/-- The collaborators `FindTagsContext` uses, kept abstract exactly where the
repository's sources do not define them: URL assembly (`getURL`,
`url.QueryEscape`, `formatTimestamp`), the node pool (`GetActiveNode`), the
transport (`DoRequestContext`), the injected JSON decodes, and
`strconv.ParseInt`. -/
structure TagsEnv where
  getURL : Option SnowthNode → String → String
  queryEscape : String → String
  formatTimestamp : GoTime → String
  activeNode : Option SnowthNode
  doRequest : Option SnowthNode → String → List (String × String) →
    Except String (String × Option (List (String × String)))
  decodeItems : String → Except String (List FindTagsItem)
  decodeCount : String → Except String FindTagsCount
  parseInt : String → Option Int

/-- Node selection of `FindTagsContext` (tags.go lines 201-209):
`nodes[0]` when the variadic list starts with a non-nil node, otherwise
`sc.GetActiveNode()`. -/
def selectNode (env : TagsEnv) (nodes : List (Option SnowthNode)) : Option SnowthNode :=
  match nodes.head? with
  | some (some n) => some n
  | _ => env.activeNode

/-- The query URL `FindTagsContext` assembles (tags.go lines 211-227). -/
def findTagsURL (env : TagsEnv) (node : Option SnowthNode) (accountID : Int)
    (query : String) (options : FindTagsOptions) : String :=
  let u := env.getURL node ("/find/" ++ toString accountID ++ "/tags")
    ++ "?query=" ++ env.queryEscape query
  let u := if options.Start.IsZero = false ∧ options.End.IsZero = false ∧
      options.Start.Unix ≠ 0 ∧ options.End.Unix ≠ 0 then
    u ++ "&activity_start_secs=" ++ env.formatTimestamp options.Start
      ++ "&activity_end_secs=" ++ env.formatTimestamp options.End
  else u
  let u := u ++ "&activity=" ++ toString options.Activity
    ++ "&latest=" ++ toString options.Latest
  if options.CountOnly ≠ 0 then u ++ "&count_only=" ++ toString options.CountOnly else u

/-- The headers `FindTagsContext` sends (tags.go lines 229-233). -/
def findTagsHdrs (options : FindTagsOptions) : List (String × String) :=
  if options.Limit ≠ 0 then [("X-Snowth-Advisory-Limit", toString options.Limit)] else []

/-- The result count (tags.go lines 262-271): the item count, overridden by a
parseable `X-Snowth-Search-Result-Count` header when one is present. -/
def resultCount (env : TagsEnv) (items : List FindTagsItem)
    (header : Option (List (String × String))) : Int :=
  match header with
  | none => (items.length : Int)
  | some h =>
    if headerGet h "X-Snowth-Search-Result-Count" ≠ "" then
      match env.parseInt (headerGet h "X-Snowth-Search-Result-Count") with
      | some cv => cv
      | none => (items.length : Int)
    else (items.length : Int)

/-- Function `FindTagsContext` (tags.go lines 201-274). The second component records
the nodes against which a transport request was issued; the Go function calls
`DoRequestContext` exactly once, on the selected node, on every path. -/
def findTagsContext (env : TagsEnv) (accountID : Int) (query : String)
    (options : FindTagsOptions) (nodes : List (Option SnowthNode)) :
    Except String FindTagsResult × List (Option SnowthNode) :=
  let node := selectNode env nodes
  match env.doRequest node (findTagsURL env node accountID query options)
      (findTagsHdrs options) with
  | .error e => (.error e, [node])
  | .ok (body, header) =>
    if options.CountOnly ≠ 0 then
      match env.decodeCount body with
      | .error e => (.error ("unable to decode IRONdb response: " ++ e), [node])
      | .ok fc => (.ok ⟨[], some fc, resultCount env [] header⟩, [node])
    else
      match env.decodeItems body with
      | .error e => (.error ("unable to decode IRONdb response: " ++ e), [node])
      | .ok items => (.ok ⟨items, none, resultCount env items header⟩, [node])

/-- C3: with an explicit (non-nil) first node, `FindTagsContext` issues its
one request to exactly that node, and a transport failure is returned
immediately — no other node is ever attempted. -/
theorem explicit_node_no_failover (env : TagsEnv) (accountID : Int)
    (query : String) (options : FindTagsOptions) (n : SnowthNode)
    (rest : List (Option SnowthNode)) :
    (findTagsContext env accountID query options (some n :: rest)).2 = [some n] ∧
      ∀ e, env.doRequest (some n)
          (findTagsURL env (some n) accountID query options) (findTagsHdrs options)
            = .error e →
        findTagsContext env accountID query options (some n :: rest)
          = (.error e, [some n]) := by
  have hsel : selectNode env (some n :: rest) = some n := rfl
  constructor
  · rw [findTagsContext, hsel]
    rcases env.doRequest (some n)
        (findTagsURL env (some n) accountID query options) (findTagsHdrs options) with
      e | ⟨body, header⟩
    · rfl
    · dsimp only
      split
      · rcases env.decodeCount body with e | fc <;> rfl
      · rcases env.decodeItems body with e | items <;> rfl
  · intro e he
    rw [findTagsContext, hsel, he]

/-- Witness for `explicit_node_no_failover`: a transport that always fails
with "connection refused" yields exactly that error, with only the explicit
node attempted. -/
theorem explicit_node_no_failover_witness :
    (findTagsContext
        ⟨fun _ p => p, id, fun _ => "", none, fun _ _ _ => .error "connection refused",
          fun _ => .ok [], fun _ => .ok ⟨0, false⟩, fun _ => none⟩
        1 "q" ⟨⟨0, true⟩, ⟨0, true⟩, 0, 0, 0, 0⟩ [some ⟨"http://n1"⟩]).2
      = [some ⟨"http://n1"⟩] ∧
    findTagsContext
        ⟨fun _ p => p, id, fun _ => "", none, fun _ _ _ => .error "connection refused",
          fun _ => .ok [], fun _ => .ok ⟨0, false⟩, fun _ => none⟩
        1 "q" ⟨⟨0, true⟩, ⟨0, true⟩, 0, 0, 0, 0⟩ [some ⟨"http://n1"⟩]
      = (.error "connection refused", [some ⟨"http://n1"⟩]) :=
  ⟨(explicit_node_no_failover _ 1 "q" _ ⟨"http://n1"⟩ []).1,
    (explicit_node_no_failover _ 1 "q" _ ⟨"http://n1"⟩ []).2 "connection refused" rfl⟩

/-- C4: when the transport succeeds but the injected decode of the body
fails, `FindTagsContext` returns the wrapped decode error at once, the single
request being the only one issued (no retry against any node). -/
theorem decode_failure_never_retried (env : TagsEnv) (accountID : Int)
    (query : String) (options : FindTagsOptions) (nodes : List (Option SnowthNode))
    (body : String) (header : Option (List (String × String)))
    (hreq : env.doRequest (selectNode env nodes)
      (findTagsURL env (selectNode env nodes) accountID query options)
      (findTagsHdrs options) = .ok (body, header)) :
    (options.CountOnly = 0 → ∀ e, env.decodeItems body = .error e →
      findTagsContext env accountID query options nodes
        = (.error ("unable to decode IRONdb response: " ++ e), [selectNode env nodes])) ∧
    (options.CountOnly ≠ 0 → ∀ e, env.decodeCount body = .error e →
      findTagsContext env accountID query options nodes
        = (.error ("unable to decode IRONdb response: " ++ e), [selectNode env nodes])) := by
  constructor
  · intro hco e he
    rw [findTagsContext, hreq]
    dsimp only
    rw [if_neg (by simp [hco]), he]
  · intro hco e he
    rw [findTagsContext, hreq]
    dsimp only
    rw [if_pos hco, he]

/-- Witness for `decode_failure_never_retried`: a decode that rejects the
body surfaces the wrapped error after the one request. -/
theorem decode_failure_never_retried_witness :
    ((0 : Int) = 0 → ∀ e,
        (fun _ => (.error "bad shape" : Except String (List FindTagsItem))) "{}" = .error e →
      findTagsContext
          ⟨fun _ p => p, id, fun _ => "", none, fun _ _ _ => .ok ("{}", none),
            fun _ => .error "bad shape", fun _ => .ok ⟨0, false⟩, fun _ => none⟩
          1 "q" ⟨⟨0, true⟩, ⟨0, true⟩, 0, 0, 0, 0⟩ [some ⟨"http://n1"⟩]
        = (.error ("unable to decode IRONdb response: " ++ e), [some ⟨"http://n1"⟩])) ∧
    ((0 : Int) ≠ 0 → ∀ e,
        (fun _ => (.ok ⟨0, false⟩ : Except String FindTagsCount)) "{}" = .error e →
      findTagsContext
          ⟨fun _ p => p, id, fun _ => "", none, fun _ _ _ => .ok ("{}", none),
            fun _ => .error "bad shape", fun _ => .ok ⟨0, false⟩, fun _ => none⟩
          1 "q" ⟨⟨0, true⟩, ⟨0, true⟩, 0, 0, 0, 0⟩ [some ⟨"http://n1"⟩]
        = (.error ("unable to decode IRONdb response: " ++ e), [some ⟨"http://n1"⟩])) :=
  decode_failure_never_retried
    ⟨fun _ p => p, id, fun _ => "", none, fun _ _ _ => .ok ("{}", none),
      fun _ => .error "bad shape", fun _ => .ok ⟨0, false⟩, fun _ => none⟩
    1 "q" ⟨⟨0, true⟩, ⟨0, true⟩, 0, 0, 0, 0⟩ [some ⟨"http://n1"⟩] "{}" none rfl

/-- Modelled from the spec: `GetActiveNode` (not among the sources) picks from
the set of Active nodes with a simple rotating/first-available strategy — the
first available node of the active sequence. -/
def getActiveNode (activeNodes : List SnowthNode) : Option SnowthNode :=
  activeNodes.head?

/-- C6: with no node argument, or a nil first node, `FindTagsContext` targets
the node `GetActiveNode` returns — a node drawn from the active set by the
first-available strategy — and issues its one request there. -/
theorem any_active_node_selection (env : TagsEnv) (accountID : Int)
    (query : String) (options : FindTagsOptions) (rest : List (Option SnowthNode))
    (actives : List SnowthNode) (henv : env.activeNode = getActiveNode actives) :
    (findTagsContext env accountID query options []).2 = [getActiveNode actives] ∧
    (findTagsContext env accountID query options (none :: rest)).2
      = [getActiveNode actives] ∧
    ∀ n, getActiveNode actives = some n → actives.head? = some n ∧ n ∈ actives := by
  have hsel1 : selectNode env [] = env.activeNode := rfl
  have hsel2 : selectNode env (none :: rest) = env.activeNode := rfl
  have htrace : ∀ nodes, (findTagsContext env accountID query options nodes).2
      = [selectNode env nodes] := by
    intro nodes
    rw [findTagsContext]
    rcases env.doRequest (selectNode env nodes)
        (findTagsURL env (selectNode env nodes) accountID query options)
        (findTagsHdrs options) with
      e | ⟨body, header⟩
    · rfl
    · dsimp only
      split
      · rcases env.decodeCount body with e | fc <;> rfl
      · rcases env.decodeItems body with e | items <;> rfl
  refine ⟨by rw [htrace, hsel1, henv], by rw [htrace, hsel2, henv], ?_⟩
  intro n hn
  exact ⟨hn, List.mem_of_mem_head? hn⟩

/-- Witness for `any_active_node_selection` with one active node. -/
theorem any_active_node_selection_witness :
    (findTagsContext
        ⟨fun _ p => p, id, fun _ => "", getActiveNode [⟨"http://a"⟩],
          fun _ _ _ => .error "down", fun _ => .ok [], fun _ => .ok ⟨0, false⟩,
          fun _ => none⟩
        1 "q" ⟨⟨0, true⟩, ⟨0, true⟩, 0, 0, 0, 0⟩ []).2
      = [getActiveNode [⟨"http://a"⟩]] ∧
    (findTagsContext
        ⟨fun _ p => p, id, fun _ => "", getActiveNode [⟨"http://a"⟩],
          fun _ _ _ => .error "down", fun _ => .ok [], fun _ => .ok ⟨0, false⟩,
          fun _ => none⟩
        1 "q" ⟨⟨0, true⟩, ⟨0, true⟩, 0, 0, 0, 0⟩ [none]).2
      = [getActiveNode [⟨"http://a"⟩]] ∧
    ∀ n, getActiveNode [⟨"http://a"⟩] = some n →
      ([⟨"http://a"⟩] : List SnowthNode).head? = some n ∧ n ∈ [(⟨"http://a"⟩ : SnowthNode)] :=
  any_active_node_selection _ 1 "q" ⟨⟨0, true⟩, ⟨0, true⟩, 0, 0, 0, 0⟩ []
    [⟨"http://a"⟩] rfl

/-! ## Rollup values (part_000): C8, C9 -/

/-- Structure `RollupValues` (part_000): `Timestamp int64`, `Value float64`. -/
structure RollupValues where
  Timestamp : Int
  Value : Rat
deriving DecidableEq, Repr

/-- Result of Go `json.Unmarshal(b, &tt)` where
`tt := []interface{}{&rv.Timestamp, &rv.Value}`: the final receiver state and
the length of the slice after decoding. Go's `encoding/json` semantics: a
syntax error or a top-level type mismatch leaves the destination slice
untouched (length stays 2); JSON `null` sets the slice to nil (length 0); a
JSON array resizes the slice to the array's length and decodes element 0
through the `*int64` (an integral number required) and element 1 through the
`*float64` (a number required), leaving a target untouched on an element type
error — the decoder saves such errors and keeps going, and the caller below
discards them anyway. -/
def unmarshalRollupPair (rv : RollupValues) : Option JsonVal → RollupValues × Nat
  | none => (rv, 2)
  | some .null => (rv, 0)
  | some (.arr xs) =>
    let rv1 : RollupValues := match xs[0]? with
      | some (JsonVal.num q) => if q.den = 1 then { rv with Timestamp := q.num } else rv
      | _ => rv
    let rv2 : RollupValues := match xs[1]? with
      | some (JsonVal.num q) => { rv1 with Value := q }
      | _ => rv1
    (rv2, xs.length)
  | some _ => (rv, 2)

/-- Method `RollupValues.UnmarshalJSON` (part_000 lines 19-28): run the JSON decode,
discard its error, and return an error exactly when the decoded slice has
fewer than two entries. The Bool is `true` when an error is returned. -/
def RollupValues.unmarshalJSON (rv : RollupValues) (b : Option JsonVal) :
    RollupValues × Bool :=
  ((unmarshalRollupPair rv b).1, decide ((unmarshalRollupPair rv b).2 < 2))

/-- C8: `RollupValues.UnmarshalJSON` errors exactly when the input is a JSON
array of fewer than two elements (or `null`, which nils the slice); the
underlying decode error is discarded, so unparsable bytes and non-array JSON
return success with the receiver left at its zero values. -/
theorem rollupValues_unmarshal_error_iff (rv : RollupValues) (b : Option JsonVal) :
    ((RollupValues.unmarshalJSON rv b).2 = true ↔
      (b = some .null ∨ ∃ xs, b = some (.arr xs) ∧ xs.length < 2)) ∧
    RollupValues.unmarshalJSON ⟨0, 0⟩ none = (⟨0, 0⟩, false) ∧
    RollupValues.unmarshalJSON ⟨0, 0⟩ (some (.str "not json")) = (⟨0, 0⟩, false) ∧
    RollupValues.unmarshalJSON ⟨0, 0⟩ (some (.obj [])) = (⟨0, 0⟩, false) := by
  refine ⟨?_, rfl, rfl, rfl⟩
  match b with
  | none => simp [RollupValues.unmarshalJSON, unmarshalRollupPair]
  | some .null => simp [RollupValues.unmarshalJSON, unmarshalRollupPair]
  | some (.bool v) => simp [RollupValues.unmarshalJSON, unmarshalRollupPair]
  | some (.num q) => simp [RollupValues.unmarshalJSON, unmarshalRollupPair]
  | some (.str s) => simp [RollupValues.unmarshalJSON, unmarshalRollupPair]
  | some (.obj fs) => simp [RollupValues.unmarshalJSON, unmarshalRollupPair]
  | some (.arr xs) => simp [RollupValues.unmarshalJSON, unmarshalRollupPair]

/-- Go `time.Second` in nanoseconds; `time.Duration` values are int64
nanosecond counts and their `/` is truncating int64 division. -/
def timeSecond : Int := 1000000000

/-- The divisor `int64(rollup/time.Second)` of `ReadRollupValues`. -/
def rollupSpanSecs (rollup : Int) : Int := rollup.tdiv timeSecond

/-- The `startTS`/`endTS` computation of `ReadRollupValues` (part_000 lines
34-36), with Go's truncating `%` embedded as `Int.tmod`; `none` where the Go
code performs an integer division by zero and panics. -/
def readRollupValuesRange (startUnix endUnix rollup : Int) : Option (Int × Int) :=
  if rollupSpanSecs rollup = 0 then none
  else some (startUnix - startUnix.tmod (rollupSpanSecs rollup),
    endUnix - endUnix.tmod (rollupSpanSecs rollup) + rollupSpanSecs rollup)

/-- C9 counterexample. The claim fails on the code twice over: for the
negative duration `-2s` (shorter than one second) the divisor is `-2`, not
zero and no panic; and for `start.Unix() = -5` with a 3-second rollup the
code produces `startTS = -3`, which is not `start.Unix()` rounded *down* to a
multiple of the span (that would be `-6 ≤ -5`; Go `%` truncates toward
zero). -/
theorem readRollupValues_claim_counterexample :
    rollupSpanSecs (-2 * 1000000000) = -2 ∧ rollupSpanSecs (-2 * 1000000000) ≠ 0 ∧
    readRollupValuesRange (-5) (-5) (3 * 1000000000) = some (-3, 0) ∧
    ¬ ((-3 : Int) ≤ -5) := by
  refine ⟨by decide, by decide, ?_, by decide⟩
  rfl

/-- C9 as amended: the divisor is `int64(rollup/time.Second)`; when the
rollup duration is at least one second the computation is well defined, with
`startTS` equal to `start.Unix()` rounded **toward zero** to a multiple of
the span (hence rounded down exactly when `start.Unix() ≥ 0`) and `endTS`
likewise rounded toward zero plus one span; and whenever `|rollup|` is
shorter than one second the divisor is zero and the Go code divides by zero
(panics). -/
theorem readRollupValues_range_spec :
    (∀ startUnix endUnix rollup : Int, timeSecond ≤ rollup →
      rollupSpanSecs rollup ≠ 0 ∧
      readRollupValuesRange startUnix endUnix rollup =
        some ((rollupSpanSecs rollup) * (startUnix.tdiv (rollupSpanSecs rollup)),
          (rollupSpanSecs rollup) * (endUnix.tdiv (rollupSpanSecs rollup))
            + rollupSpanSecs rollup) ∧
      (0 ≤ startUnix →
        (rollupSpanSecs rollup) * (startUnix.tdiv (rollupSpanSecs rollup)) ≤ startUnix ∧
        startUnix < (rollupSpanSecs rollup) * (startUnix.tdiv (rollupSpanSecs rollup))
          + rollupSpanSecs rollup)) ∧
    (∀ rollup : Int, rollup.natAbs < 1000000000 →
      rollupSpanSecs rollup = 0 ∧
      ∀ s e : Int, readRollupValuesRange s e rollup = none) := by
  constructor
  · intro startUnix endUnix rollup hrollup
    have hsec : (0 : Int) < timeSecond := by decide
    have hspan : 1 ≤ rollupSpanSecs rollup := by
      rw [rollupSpanSecs]
      calc (1 : Int) = timeSecond.tdiv timeSecond := by decide
        _ ≤ rollup.tdiv timeSecond := by
          rw [Int.tdiv_eq_ediv (by decide) (by decide),
            Int.tdiv_eq_ediv (le_trans (by decide) hrollup) (by decide)]
          exact Int.ediv_le_ediv hsec hrollup
    have hne : rollupSpanSecs rollup ≠ 0 := by omega
    refine ⟨hne, ?_, ?_⟩
    · rw [readRollupValuesRange, if_neg hne]
      have hs := Int.tdiv_add_tmod startUnix (rollupSpanSecs rollup)
      have he := Int.tdiv_add_tmod endUnix (rollupSpanSecs rollup)
      have h1 : startUnix - startUnix.tmod (rollupSpanSecs rollup)
          = rollupSpanSecs rollup * startUnix.tdiv (rollupSpanSecs rollup) := by omega
      have h2 : endUnix - endUnix.tmod (rollupSpanSecs rollup) + rollupSpanSecs rollup
          = rollupSpanSecs rollup * endUnix.tdiv (rollupSpanSecs rollup)
            + rollupSpanSecs rollup := by omega
      rw [h1, h2]
    · intro hsnn
      have hmod : startUnix.tmod (rollupSpanSecs rollup)
          = startUnix.emod (rollupSpanSecs rollup) :=
        Int.tmod_eq_emod hsnn (by omega)
      have hs := Int.tdiv_add_tmod startUnix (rollupSpanSecs rollup)
      have h0 : 0 ≤ startUnix.emod (rollupSpanSecs rollup) :=
        Int.emod_nonneg _ (by omega)
      have h1 : startUnix.emod (rollupSpanSecs rollup) < rollupSpanSecs rollup :=
        Int.emod_lt_of_pos _ (by omega)
      omega
  · intro rollup habs
    have hspan : rollupSpanSecs rollup = 0 := by
      rw [rollupSpanSecs]
      rcases le_or_lt 0 rollup with hnn | hneg
      · exact Int.tdiv_eq_zero_of_lt hnn (by rw [timeSecond]; omega)
      · have hpos : (-rollup).tdiv timeSecond = 0 :=
          Int.tdiv_eq_zero_of_lt (by omega) (by rw [timeSecond]; omega)
        have hneg2 := Int.neg_tdiv (-rollup) timeSecond
        rw [neg_neg, hpos, neg_zero] at hneg2
        exact hneg2
    exact ⟨hspan, fun s e => by rw [readRollupValuesRange, if_pos hspan]⟩

/-- Witness for `readRollupValues_range_spec`: a 5-minute rollup starting at
Unix time 1380000010 rounds to 1380000000, and a 300ms rollup has divisor
zero (Go panics). -/
theorem readRollupValues_range_spec_witness :
    (timeSecond ≤ 300 * 1000000000 ∧
      readRollupValuesRange 1380000010 1380000010 (300 * 1000000000)
        = some (300 * (1380000010 / 300), 300 * (1380000010 / 300) + 300)) ∧
    ((300000000 : Int).natAbs < 1000000000 ∧ rollupSpanSecs 300000000 = 0 ∧
      readRollupValuesRange 0 0 300000000 = none) := by
  have h1 := (readRollupValues_range_spec.1 1380000010 1380000010
    (300 * 1000000000) (by decide)).2.1
  have h2 := readRollupValues_range_spec.2 300000000 (by decide)
  exact ⟨⟨by decide, by exact h1⟩, ⟨by decide, h2.1, h2.2 0 0⟩⟩

/-! ## toporing.go: C7 -/

/-- Structure `TopoRingDetail` (toporing.go lines 17-22): one virtual node of the ring
document — `id` string attribute, `idx` int attribute, `location` float
attribute (the `XMLName` metadata field only steers Go's XML codec). -/
structure TopoRingDetail where
  ID : String
  IDX : Int
  Location : Rat
deriving DecidableEq, Repr

/-- Structure `TopoRing` (toporing.go lines 10-14). -/
structure TopoRing where
  VirtualNodes : List TopoRingDetail
  NumberNodes : Int
deriving DecidableEq, Repr

/-- A `TopoRingDetail` read as the spec's `RingDescriptor`. -/
def TopoRingDetail.toRingDescriptor (d : TopoRingDetail) : RingDescriptor :=
  ⟨d.ID, d.IDX, d.Location⟩

/-- A `RingDescriptor` written back as a `TopoRingDetail`. -/
def RingDescriptor.toTopoRingDetail (r : RingDescriptor) : TopoRingDetail :=
  ⟨r.nodeID, r.index, r.position⟩

/-- Modelled from the spec: the client's generic dispatch helper `do` that
`GetTopoRingInfoContext` calls is not among the sources; spec §6 gives its
contract — perform the request against the node and hand the response bytes
to the injected decode step, which decodes in place into the output value,
or return the transport error. -/
def doRequestDecode (transport : Except String String)
    (decodeXML : String → TopoRing → TopoRing × Option String)
    (out : TopoRing) : TopoRing × Option String :=
  match transport with
  | .error e => (out, some e)
  | .ok body => decodeXML body out

/-- Function `GetTopoRingInfoContext` (toporing.go lines 31-37): allocate a fresh
`TopoRing` and run the GET for `/toporing/xml/{hash}` through `do` with the
injected XML decode, returning the decoded value together with the error. -/
def GetTopoRingInfoContext (transport : Except String String)
    (decodeXML : String → TopoRing → TopoRing × Option String) :
    TopoRing × Option String :=
  doRequestDecode transport decodeXML ⟨[], 0⟩

/-- C7: the ring-document fetch returns, on transport success, exactly what
the injected decode produced — a `TopoRing` whose virtual-node details each
carry exactly a node ID string, an integer index, and a ring position, in
lossless correspondence with the spec's `RingDescriptor` shape — and on
transport failure it propagates that error with the untouched fresh value. -/
theorem getTopoRingInfo_spec (transport : Except String String)
    (decodeXML : String → TopoRing → TopoRing × Option String) :
    (GetTopoRingInfoContext transport decodeXML =
      match transport with
      | .error e => (⟨[], 0⟩, some e)
      | .ok body => decodeXML body ⟨[], 0⟩) ∧
    (∀ d : TopoRingDetail, d.toRingDescriptor.nodeID = d.ID ∧
      d.toRingDescriptor.index = d.IDX ∧ d.toRingDescriptor.position = d.Location ∧
      d.toRingDescriptor.toTopoRingDetail = d) ∧
    (∀ r : RingDescriptor, r.toTopoRingDetail.toRingDescriptor = r) := by
  refine ⟨?_, fun d => ⟨rfl, rfl, rfl, rfl⟩, fun r => rfl⟩
  cases transport <;> rfl

end Gosnowth
